import Mathlib

/-!
Shallow embedding of `visualize_board.py`: a Catan-board visualizer built on
cube coordinates, flat-top hexagon geometry, and a node-label rendering pass.
Python floats are modelled as real numbers; fallible constructs (the
`CubeCoord` zero-sum assertion, dictionary `KeyError`s) are modelled with
`Option`. Python dictionaries are modelled as insertion-ordered association
lists.
-/

open Real

/-- Tile kind string constants (class `TileTemplate`). -/
def TileTemplate.LAND : String := "Land"

def TileTemplate.WATER : String := "Water"

def TileTemplate.PORT : String := "Port"

/-- Node reference string constants (class `NodeRef`). -/
def NodeRef.North : String := "North"

def NodeRef.NorthEast : String := "NorthEast"

def NodeRef.SouthEast : String := "SouthEast"

def NodeRef.South : String := "South"

def NodeRef.SouthWest : String := "SouthWest"

def NodeRef.NorthWest : String := "NorthWest"

/-- The `CubeCoord` dataclass: three integer components. -/
structure CubeCoord where
  x : ℤ
  y : ℤ
  z : ℤ
  deriving DecidableEq, Repr

/-- Construction of a `CubeCoord`, including the `__post_init__` assertion
`x + y + z == 0`; a violating triple raises, modelled as `none`. -/
def CubeCoord.mk? (x y z : ℤ) : Option CubeCoord :=
  if x + y + z = 0 then some ⟨x, y, z⟩ else none

/-- `cube_to_pixel`: pixel center of a flat-top hexagon at a cube coordinate. -/
noncomputable def cube_to_pixel (cube : CubeCoord) (size : ℝ) : ℝ × ℝ :=
  (size * (Real.sqrt 3 * (cube.x : ℝ) + Real.sqrt 3 / 2 * (cube.z : ℝ)),
   size * (3 / 2 * (cube.z : ℝ)))

/-- The `node_order` list used by `hexagon_corners` and `get_node_position`. -/
def node_order : List String :=
  [NodeRef.North, NodeRef.NorthEast, NodeRef.SouthEast,
   NodeRef.South, NodeRef.SouthWest, NodeRef.NorthWest]

/-- Python dictionary indexing over an insertion-ordered association list:
`dict_lookup d k` is `some v` for the first binding of `k`, `none` when the
key is absent (a `KeyError` at an indexing site). -/
def dict_lookup {α β : Type _} [DecidableEq α] (d : List (α × β)) (k : α) :
    Option β :=
  match d with
  | [] => none
  | (k', v) :: rest => if k = k' then some v else dict_lookup rest k

/-- The `node_angles` dictionary of `hexagon_corners`. -/
noncomputable def node_angles : List (String × ℝ) :=
  [(NodeRef.North, -(π / 2)),
   (NodeRef.NorthEast, -(π / 6)),
   (NodeRef.SouthEast, π / 6),
   (NodeRef.South, π / 2),
   (NodeRef.SouthWest, 5 * π / 6),
   (NodeRef.NorthWest, -(5 * π / 6))]

/-- `hexagon_corners`: the 6 corners of a flat-top hexagon, in `node_order`.
Every element of `node_order` is a key of `node_angles`, so the `.getD 0`
default is never taken (a missing key would be a `KeyError` in the source). -/
noncomputable def hexagon_corners (center_x center_y size : ℝ) : List (ℝ × ℝ) :=
  node_order.map (fun node =>
    let angle := (dict_lookup node_angles node).getD 0
    (center_x + size * Real.cos angle, center_y + size * Real.sin angle))

/-- The `node_map` dictionary of `get_node_position`: direction name to index
in `node_order`. -/
def node_map : List (String × ℕ) :=
  (node_order.enum).map (fun p => (p.2, p.1))

/-- `get_node_position`: corner of the hexagon selected by direction name.
The dictionary access `node_map[node_ref]` raises `KeyError` for a string
outside the six direction names, modelled as `none`. -/
noncomputable def get_node_position (center_x center_y size : ℝ)
    (node_ref : String) : Option (ℝ × ℝ) :=
  (dict_lookup node_map node_ref).bind
    (fun idx => (hexagon_corners center_x center_y size).get? idx)

/-- The node-ID position list built per tile:
`node_pixel coord ref size = get_node_position px py size ref` where
`(px, py) = cube_to_pixel (CubeCoord x y z) size` — the exact composition the
renderer performs for each collected node. -/
noncomputable def node_pixel (coord : ℤ × ℤ × ℤ) (ref : String) (size : ℝ) :
    Option (ℝ × ℝ) :=
  let c := cube_to_pixel ⟨coord.1, coord.2.1, coord.2.2⟩ size
  get_node_position c.1 c.2 size ref

/-- The centroid-collapse step of `visualize_map` (lines 419–426): a singleton
position list is returned unchanged, otherwise the arithmetic mean of the x
and of the y coordinates is taken. -/
noncomputable def collapse_positions (positions : List (ℝ × ℝ)) : ℝ × ℝ :=
  match positions with
  | [p] => p
  | ps =>
    ((ps.map Prod.fst).sum / ps.length, (ps.map Prod.snd).sum / ps.length)

/-- `node_id_to_positions[node_id].append(pos)` on the insertion-ordered
`defaultdict(list)`: an existing key gets the position appended to its list, a
new key is inserted at the end with a singleton list. -/
def add_position (acc : List (ℕ × List (ℝ × ℝ))) (node_id : ℕ)
    (pos : ℝ × ℝ) : List (ℕ × List (ℝ × ℝ)) :=
  match acc with
  | [] => [(node_id, [pos])]
  | (k, ps) :: rest =>
    if k = node_id then (k, ps ++ [pos]) :: rest
    else (k, ps) :: add_position rest node_id pos

/-- The per-tile node-collection loop of `visualize_map` (lines 408–414): for
each of the six directions, look up `(coord, node_ref)` in the node-ID table;
a missing key is skipped, a present one contributes its pixel position. The
inner `get_node_position` always succeeds here since `node_ref` ranges over
`node_order`. -/
noncomputable def collect_tile_nodes
    (node_ids : List (((ℤ × ℤ × ℤ) × String) × ℕ)) (coord : ℤ × ℤ × ℤ)
    (px py size : ℝ) (acc : List (ℕ × List (ℝ × ℝ))) :
    List (ℕ × List (ℝ × ℝ)) :=
  node_order.foldl (fun acc node_ref =>
    match dict_lookup node_ids (coord, node_ref) with
    | none => acc
    | some node_id =>
      match get_node_position px py size node_ref with
      | none => acc
      | some pos => add_position acc node_id pos) acc

/-- Python truthiness of the optional `node_ids` argument: `if node_ids:` is
false both for `None` and for an empty dictionary. -/
def table_truthy : Option (List (((ℤ × ℤ × ℤ) × String) × ℕ)) → Bool
  | none => false
  | some d => !d.isEmpty

/-- The tile loop of `visualize_map` (lines 395–414): each tile's coordinate
is checked by the `CubeCoord` constructor (an invalid triple aborts the run),
its hexagon is drawn at `cube_to_pixel`, and, when the table is truthy, its
node positions are collected. The accumulator pairs the list of drawn hexagon
centers with the node-ID position lists. -/
noncomputable def render_tiles (size : ℝ)
    (nids : List (((ℤ × ℤ × ℤ) × String) × ℕ)) (active : Bool) :
    List ((ℤ × ℤ × ℤ) × String) →
    List (ℝ × ℝ) × List (ℕ × List (ℝ × ℝ)) →
    Option (List (ℝ × ℝ) × List (ℕ × List (ℝ × ℝ)))
  | [], acc => some acc
  | ((x, y, z), _kind) :: rest, acc =>
    match CubeCoord.mk? x y z with
    | none => none
    | some cube =>
      let c := cube_to_pixel cube size
      let nacc :=
        if active then collect_tile_nodes nids (x, y, z) c.1 c.2 size acc.2
        else acc.2
      render_tiles size nids active rest (acc.1 ++ [c], nacc)

/-- Observable output of `visualize_map`: the centers of the drawn hexagons
(one per tile) and the emitted node labels (node ID paired with its collapsed
centroid position), in order. -/
structure RenderOutput where
  hexagons : List (ℝ × ℝ)
  labels : List (ℕ × (ℝ × ℝ))

/-- `visualize_map`: draw every tile of the topology, collect node positions
when a truthy node-ID table is supplied, collapse each node ID's position
list to its centroid, and emit one label per node ID. An invalid cube
coordinate in the topology aborts the run (`none`). -/
noncomputable def visualize_map (topology : List ((ℤ × ℤ × ℤ) × String))
    (hex_size : ℝ) (node_ids : Option (List (((ℤ × ℤ × ℤ) × String) × ℕ))) :
    Option RenderOutput :=
  (render_tiles hex_size (node_ids.getD []) (table_truthy node_ids) topology
      ([], [])).map
    (fun acc =>
      ⟨acc.1, acc.2.map (fun p => (p.1, collapse_positions p.2))⟩)
/-- The `MINI_TOPOLOGY` table. -/
def MINI_TOPOLOGY : List ((ℤ × ℤ × ℤ) × String) := [
  ((0, 0, 0), TileTemplate.LAND),
  ((1, -1, 0), TileTemplate.LAND),
  ((0, -1, 1), TileTemplate.LAND),
  ((-1, 0, 1), TileTemplate.LAND),
  ((-1, 1, 0), TileTemplate.LAND),
  ((0, 1, -1), TileTemplate.LAND),
  ((1, 0, -1), TileTemplate.LAND),
  ((2, -2, 0), TileTemplate.WATER),
  ((1, -2, 1), TileTemplate.WATER),
  ((0, -2, 2), TileTemplate.WATER),
  ((-1, -1, 2), TileTemplate.WATER),
  ((-2, 0, 2), TileTemplate.WATER),
  ((-2, 1, 1), TileTemplate.WATER),
  ((-2, 2, 0), TileTemplate.WATER),
  ((-1, 2, -1), TileTemplate.WATER),
  ((0, 2, -2), TileTemplate.WATER),
  ((1, 1, -2), TileTemplate.WATER),
  ((2, 0, -2), TileTemplate.WATER),
  ((2, -1, -1), TileTemplate.WATER)
]

/-- The `MINI_NODE_IDS` table: node-ID assignment for the mini map. -/
def MINI_NODE_IDS : List (((ℤ × ℤ × ℤ) × String) × ℕ) := [
  (((-2, 0, 2), NodeRef.North), 14),
  (((-2, 0, 2), NodeRef.NorthEast), 13),
  (((-2, 0, 2), NodeRef.NorthWest), 37),
  (((-2, 0, 2), NodeRef.South), 35),
  (((-2, 0, 2), NodeRef.SouthEast), 34),
  (((-2, 0, 2), NodeRef.SouthWest), 36),
  (((-2, 1, 1), NodeRef.North), 17),
  (((-2, 1, 1), NodeRef.NorthEast), 15),
  (((-2, 1, 1), NodeRef.NorthWest), 39),
  (((-2, 1, 1), NodeRef.South), 37),
  (((-2, 1, 1), NodeRef.SouthEast), 14),
  (((-2, 1, 1), NodeRef.SouthWest), 38),
  (((-2, 2, 0), NodeRef.North), 40),
  (((-2, 2, 0), NodeRef.NorthEast), 18),
  (((-2, 2, 0), NodeRef.NorthWest), 42),
  (((-2, 2, 0), NodeRef.South), 39),
  (((-2, 2, 0), NodeRef.SouthEast), 17),
  (((-2, 2, 0), NodeRef.SouthWest), 41),
  (((-1, -1, 2), NodeRef.North), 12),
  (((-1, -1, 2), NodeRef.NorthEast), 11),
  (((-1, -1, 2), NodeRef.NorthWest), 13),
  (((-1, -1, 2), NodeRef.South), 33),
  (((-1, -1, 2), NodeRef.SouthEast), 32),
  (((-1, -1, 2), NodeRef.SouthWest), 34),
  (((-1, 0, 1), NodeRef.North), 4),
  (((-1, 0, 1), NodeRef.NorthEast), 3),
  (((-1, 0, 1), NodeRef.NorthWest), 15),
  (((-1, 0, 1), NodeRef.South), 13),
  (((-1, 0, 1), NodeRef.SouthEast), 12),
  (((-1, 0, 1), NodeRef.SouthWest), 14),
  (((-1, 1, 0), NodeRef.North), 16),
  (((-1, 1, 0), NodeRef.NorthEast), 5),
  (((-1, 1, 0), NodeRef.NorthWest), 18),
  (((-1, 1, 0), NodeRef.South), 15),
  (((-1, 1, 0), NodeRef.SouthEast), 4),
  (((-1, 1, 0), NodeRef.SouthWest), 17),
  (((-1, 2, -1), NodeRef.North), 43),
  (((-1, 2, -1), NodeRef.NorthEast), 21),
  (((-1, 2, -1), NodeRef.NorthWest), 44),
  (((-1, 2, -1), NodeRef.South), 18),
  (((-1, 2, -1), NodeRef.SouthEast), 16),
  (((-1, 2, -1), NodeRef.SouthWest), 40),
  (((0, -2, 2), NodeRef.North), 10),
  (((0, -2, 2), NodeRef.NorthEast), 29),
  (((0, -2, 2), NodeRef.NorthWest), 11),
  (((0, -2, 2), NodeRef.South), 31),
  (((0, -2, 2), NodeRef.SouthEast), 30),
  (((0, -2, 2), NodeRef.SouthWest), 32),
  (((0, -1, 1), NodeRef.North), 2),
  (((0, -1, 1), NodeRef.NorthEast), 9),
  (((0, -1, 1), NodeRef.NorthWest), 3),
  (((0, -1, 1), NodeRef.South), 11),
  (((0, -1, 1), NodeRef.SouthEast), 10),
  (((0, -1, 1), NodeRef.SouthWest), 12),
  (((0, 0, 0), NodeRef.North), 0),
  (((0, 0, 0), NodeRef.NorthEast), 1),
  (((0, 0, 0), NodeRef.NorthWest), 5),
  (((0, 0, 0), NodeRef.South), 3),
  (((0, 0, 0), NodeRef.SouthEast), 2),
  (((0, 0, 0), NodeRef.SouthWest), 4),
  (((0, 1, -1), NodeRef.North), 19),
  (((0, 1, -1), NodeRef.NorthEast), 20),
  (((0, 1, -1), NodeRef.NorthWest), 21),
  (((0, 1, -1), NodeRef.South), 5),
  (((0, 1, -1), NodeRef.SouthEast), 0),
  (((0, 1, -1), NodeRef.SouthWest), 16),
  (((0, 2, -2), NodeRef.North), 45),
  (((0, 2, -2), NodeRef.NorthEast), 46),
  (((0, 2, -2), NodeRef.NorthWest), 47),
  (((0, 2, -2), NodeRef.South), 21),
  (((0, 2, -2), NodeRef.SouthEast), 19),
  (((0, 2, -2), NodeRef.SouthWest), 43),
  (((1, -2, 1), NodeRef.North), 8),
  (((1, -2, 1), NodeRef.NorthEast), 27),
  (((1, -2, 1), NodeRef.NorthWest), 9),
  (((1, -2, 1), NodeRef.South), 29),
  (((1, -2, 1), NodeRef.SouthEast), 28),
  (((1, -2, 1), NodeRef.SouthWest), 10),
  (((1, -1, 0), NodeRef.North), 6),
  (((1, -1, 0), NodeRef.NorthEast), 7),
  (((1, -1, 0), NodeRef.NorthWest), 1),
  (((1, -1, 0), NodeRef.South), 9),
  (((1, -1, 0), NodeRef.SouthEast), 8),
  (((1, -1, 0), NodeRef.SouthWest), 2),
  (((1, 0, -1), NodeRef.North), 22),
  (((1, 0, -1), NodeRef.NorthEast), 23),
  (((1, 0, -1), NodeRef.NorthWest), 20),
  (((1, 0, -1), NodeRef.South), 1),
  (((1, 0, -1), NodeRef.SouthEast), 6),
  (((1, 0, -1), NodeRef.SouthWest), 0),
  (((1, 1, -2), NodeRef.North), 48),
  (((1, 1, -2), NodeRef.NorthEast), 49),
  (((1, 1, -2), NodeRef.NorthWest), 46),
  (((1, 1, -2), NodeRef.South), 20),
  (((1, 1, -2), NodeRef.SouthEast), 22),
  (((1, 1, -2), NodeRef.SouthWest), 19),
  (((2, -2, 0), NodeRef.North), 24),
  (((2, -2, 0), NodeRef.NorthEast), 25),
  (((2, -2, 0), NodeRef.NorthWest), 7),
  (((2, -2, 0), NodeRef.South), 27),
  (((2, -2, 0), NodeRef.SouthEast), 26),
  (((2, -2, 0), NodeRef.SouthWest), 8),
  (((2, -1, -1), NodeRef.North), 52),
  (((2, -1, -1), NodeRef.NorthEast), 53),
  (((2, -1, -1), NodeRef.NorthWest), 23),
  (((2, -1, -1), NodeRef.South), 7),
  (((2, -1, -1), NodeRef.SouthEast), 24),
  (((2, -1, -1), NodeRef.SouthWest), 6),
  (((2, 0, -2), NodeRef.North), 50),
  (((2, 0, -2), NodeRef.NorthEast), 51),
  (((2, 0, -2), NodeRef.NorthWest), 49),
  (((2, 0, -2), NodeRef.South), 23),
  (((2, 0, -2), NodeRef.SouthEast), 52),
  (((2, 0, -2), NodeRef.SouthWest), 22)
]

/-! ### Integer reconstruction of node pixel positions

Every node pixel position has the form `(s·(√3/2)·i, (s/2)·j)` with integers
`i`, `j`, which makes equality of positions across tiles decidable. -/

/-- Twice the x coordinate of a node, in units of `size·√3/2`. -/
def node_int_x (coord : ℤ × ℤ × ℤ) (ref : String) : ℤ :=
  2 * coord.1 + coord.2.2 +
    (if ref = NodeRef.NorthEast ∨ ref = NodeRef.SouthEast then 1
     else if ref = NodeRef.SouthWest ∨ ref = NodeRef.NorthWest then -1
     else 0)

/-- Twice the y coordinate of a node, in units of `size/2`. -/
def node_int_y (coord : ℤ × ℤ × ℤ) (ref : String) : ℤ :=
  3 * coord.2.2 +
    (if ref = NodeRef.North then -2
     else if ref = NodeRef.NorthEast ∨ ref = NodeRef.NorthWest then -1
     else if ref = NodeRef.SouthEast ∨ ref = NodeRef.SouthWest then 1
     else 2)

/-! ### Closed forms for the hexagon geometry -/

lemma cos_five_pi_div_six : Real.cos (5 * π / 6) = -(Real.sqrt 3 / 2) := by
  have h : 5 * π / 6 = π - π / 6 := by ring
  rw [h, Real.cos_pi_sub, Real.cos_pi_div_six]

lemma sin_five_pi_div_six : Real.sin (5 * π / 6) = 1 / 2 := by
  have h : 5 * π / 6 = π - π / 6 := by ring
  rw [h, Real.sin_pi_sub, Real.sin_pi_div_six]

/-- The six corners of `hexagon_corners`, with the trigonometry evaluated. -/
lemma hexagon_corners_eq (cx cy s : ℝ) :
    hexagon_corners cx cy s =
      [(cx, cy - s),
       (cx + s * (Real.sqrt 3 / 2), cy - s / 2),
       (cx + s * (Real.sqrt 3 / 2), cy + s / 2),
       (cx, cy + s),
       (cx - s * (Real.sqrt 3 / 2), cy + s / 2),
       (cx - s * (Real.sqrt 3 / 2), cy - s / 2)] := by
  simp [hexagon_corners, node_order, node_angles, dict_lookup,
    NodeRef.North, NodeRef.NorthEast, NodeRef.SouthEast,
    NodeRef.South, NodeRef.SouthWest, NodeRef.NorthWest,
    Real.cos_pi_div_six, Real.sin_pi_div_six,
    cos_five_pi_div_six, sin_five_pi_div_six]
  ring_nf
  norm_num [Real.cos_pi_div_six, Real.sin_pi_div_six]

lemma get_node_position_north (cx cy s : ℝ) :
    get_node_position cx cy s NodeRef.North = some (cx, cy - s) := by
  have h : dict_lookup node_map NodeRef.North = some 0 := by decide
  rw [get_node_position, h, hexagon_corners_eq]; rfl

lemma get_node_position_northEast (cx cy s : ℝ) :
    get_node_position cx cy s NodeRef.NorthEast =
      some (cx + s * (Real.sqrt 3 / 2), cy - s / 2) := by
  have h : dict_lookup node_map NodeRef.NorthEast = some 1 := by decide
  rw [get_node_position, h, hexagon_corners_eq]; rfl

lemma get_node_position_southEast (cx cy s : ℝ) :
    get_node_position cx cy s NodeRef.SouthEast =
      some (cx + s * (Real.sqrt 3 / 2), cy + s / 2) := by
  have h : dict_lookup node_map NodeRef.SouthEast = some 2 := by decide
  rw [get_node_position, h, hexagon_corners_eq]; rfl

lemma get_node_position_south (cx cy s : ℝ) :
    get_node_position cx cy s NodeRef.South = some (cx, cy + s) := by
  have h : dict_lookup node_map NodeRef.South = some 3 := by decide
  rw [get_node_position, h, hexagon_corners_eq]; rfl

lemma get_node_position_southWest (cx cy s : ℝ) :
    get_node_position cx cy s NodeRef.SouthWest =
      some (cx - s * (Real.sqrt 3 / 2), cy + s / 2) := by
  have h : dict_lookup node_map NodeRef.SouthWest = some 4 := by decide
  rw [get_node_position, h, hexagon_corners_eq]; rfl

lemma get_node_position_northWest (cx cy s : ℝ) :
    get_node_position cx cy s NodeRef.NorthWest =
      some (cx - s * (Real.sqrt 3 / 2), cy - s / 2) := by
  have h : dict_lookup node_map NodeRef.NorthWest = some 5 := by decide
  rw [get_node_position, h, hexagon_corners_eq]; rfl

/-- A direction string outside the six names finds no entry in `node_map`. -/
lemma node_map_lookup_none (ref : String) (h : ref ∉ node_order) :
    dict_lookup node_map ref = none := by
  simp only [node_order, List.mem_cons, List.not_mem_nil, or_false, not_or] at h
  obtain ⟨h1, h2, h3, h4, h5, h6⟩ := h
  simp [node_map, node_order, dict_lookup, List.enum, h1, h2, h3, h4, h5, h6]

/-- A node pixel position, as the renderer computes it
(`get_node_position` applied to `cube_to_pixel`), equals the integer
reconstruction for every direction in `node_order`. -/
lemma node_pixel_int (x y z : ℤ) (s : ℝ) (ref : String) (h : ref ∈ node_order) :
    node_pixel (x, y, z) ref s =
      some (s * (Real.sqrt 3 / 2) * (node_int_x (x, y, z) ref : ℝ),
            s / 2 * (node_int_y (x, y, z) ref : ℝ)) := by
  simp only [node_order, List.mem_cons, List.not_mem_nil, or_false] at h
  rcases h with rfl | rfl | rfl | rfl | rfl | rfl <;>
    simp only [node_pixel, cube_to_pixel, get_node_position_north,
      get_node_position_northEast, get_node_position_southEast,
      get_node_position_south, get_node_position_southWest,
      get_node_position_northWest, Option.some.injEq] <;>
    simp [node_int_x, node_int_y, Prod.ext_iff, NodeRef.North,
      NodeRef.NorthEast, NodeRef.SouthEast, NodeRef.South,
      NodeRef.SouthWest, NodeRef.NorthWest]
  all_goals constructor <;> push_cast <;> ring

/-- Decidable core of the shared-node reconciliation: any two entries of
`MINI_NODE_IDS` carrying the same node ID name directions in `node_order` and
reconstruct to the same integer position, and every key's coordinate is a
tile of `MINI_TOPOLOGY`. -/
lemma mini_node_ids_consistent :
    (∀ e1 ∈ MINI_NODE_IDS, ∀ e2 ∈ MINI_NODE_IDS, e1.2 = e2.2 →
      node_int_x e1.1.1 e1.1.2 = node_int_x e2.1.1 e2.1.2 ∧
      node_int_y e1.1.1 e1.1.2 = node_int_y e2.1.1 e2.1.2) ∧
    (∀ e ∈ MINI_NODE_IDS, e.1.2 ∈ node_order ∧
      e.1.1 ∈ MINI_TOPOLOGY.map Prod.fst) := by
  set_option maxRecDepth 100000 in decide

lemma sqrt_sq_sum_eq (a b s : ℝ) (hs : 0 ≤ s) (h : a ^ 2 + b ^ 2 = s ^ 2) :
    Real.sqrt (a ^ 2 + b ^ 2) = s := by
  rw [h, Real.sqrt_sq hs]

/-- C1: `cube_to_pixel` computes exactly the flat-top layout formula
`(size·(√3·x + (√3/2)·z), size·(3/2)·z)` on every zero-sum cube coordinate;
in particular `(0,0,0)` maps to the origin for any size and `(1,-1,0)` at
size 1 maps to `(√3, 0)`. -/
theorem cube_to_pixel_spec (c : CubeCoord) (size : ℝ)
    (h : c.x + c.y + c.z = 0) :
    cube_to_pixel c size =
      (size * (Real.sqrt 3 * (c.x : ℝ) + Real.sqrt 3 / 2 * (c.z : ℝ)),
       size * (3 / 2 * (c.z : ℝ))) ∧
    cube_to_pixel ⟨0, 0, 0⟩ size = (0, 0) ∧
    cube_to_pixel ⟨1, -1, 0⟩ 1 = (Real.sqrt 3, 0) := by
  refine ⟨rfl, ?_, ?_⟩
  · simp [cube_to_pixel]
  · simp [cube_to_pixel]

/-- Witness for C1 at the concrete coordinate `(0,0,0)` and size 1. -/
theorem cube_to_pixel_spec_witness :
    cube_to_pixel ⟨0, 0, 0⟩ 1 =
      (1 * (Real.sqrt 3 * ((CubeCoord.mk 0 0 0).x : ℝ) +
            Real.sqrt 3 / 2 * ((CubeCoord.mk 0 0 0).z : ℝ)),
       1 * (3 / 2 * ((CubeCoord.mk 0 0 0).z : ℝ))) ∧
    cube_to_pixel ⟨0, 0, 0⟩ 1 = (0, 0) ∧
    cube_to_pixel ⟨1, -1, 0⟩ 1 = (Real.sqrt 3, 0) :=
  cube_to_pixel_spec ⟨0, 0, 0⟩ 1 (by decide)

/-- C2 counterexample: at the (negative) size `-1`, the first corner returned
by `hexagon_corners 0 0 (-1)` is `(0, 1)`, whose Euclidean distance from the
center `(0, 0)` is `1`, not the size `-1`. -/
theorem hexagon_corners_neg_size_cex :
    (hexagon_corners 0 0 (-1)).get? 0 = some ((0 : ℝ), (1 : ℝ)) ∧
    Real.sqrt (((0 : ℝ) - 0) ^ 2 + ((1 : ℝ) - 0) ^ 2) ≠ (-1 : ℝ) := by
  constructor
  · rw [hexagon_corners_eq]
    norm_num
  · intro h
    have h0 : (0 : ℝ) ≤ Real.sqrt (((0 : ℝ) - 0) ^ 2 + ((1 : ℝ) - 0) ^ 2) :=
      Real.sqrt_nonneg _
    rw [h] at h0
    linarith

/-- C2 (amended to nonnegative sizes): for every center and every size
`0 ≤ s`, `hexagon_corners` returns exactly 6 points; the k-th point is at
angle `-π/2 + k·π/3` from the center and at Euclidean distance `s` from it. -/
theorem hexagon_corners_spec (cx cy s : ℝ) (hs : 0 ≤ s) :
    (hexagon_corners cx cy s).length = 6 ∧
    ∀ (k : ℕ) (p : ℝ × ℝ), (hexagon_corners cx cy s).get? k = some p →
      p = (cx + s * Real.cos (-(π / 2) + (k : ℝ) * (π / 3)),
           cy + s * Real.sin (-(π / 2) + (k : ℝ) * (π / 3))) ∧
      Real.sqrt ((p.1 - cx) ^ 2 + (p.2 - cy) ^ 2) = s := by
  refine ⟨by rw [hexagon_corners_eq]; rfl, ?_⟩
  intro k p hk
  have hk6 : k < 6 := by
    by_contra hge
    push_neg at hge
    rw [List.get?_eq_none.mpr (by rw [hexagon_corners_eq]; simpa using hge)]
      at hk
    exact Option.noConfusion hk
  rw [hexagon_corners_eq] at hk
  have h3 : Real.sqrt 3 ^ 2 = 3 := Real.sq_sqrt (by norm_num)
  interval_cases k
  · simp only [List.get?, Option.some.injEq] at hk
    subst hk
    refine ⟨?_, sqrt_sq_sum_eq _ _ _ hs (by simp)⟩
    have ha : -(π / 2) + ((0 : ℕ) : ℝ) * (π / 3) = -(π / 2) := by
      push_cast; ring
    rw [ha, Real.cos_neg, Real.sin_neg, Real.cos_pi_div_two,
      Real.sin_pi_div_two]
    norm_num [Prod.ext_iff]
    all_goals (first | (constructor <;> ring) | ring)
  · simp only [List.get?, Option.some.injEq] at hk
    subst hk
    refine ⟨?_, sqrt_sq_sum_eq _ _ _ hs (by simp; linear_combination (s ^ 2 / 4) * h3)⟩
    have ha : -(π / 2) + ((1 : ℕ) : ℝ) * (π / 3) = -(π / 6) := by
      push_cast; ring
    rw [ha, Real.cos_neg, Real.sin_neg, Real.cos_pi_div_six,
      Real.sin_pi_div_six]
    norm_num [Prod.ext_iff]
    all_goals (first | (constructor <;> ring) | ring)
  · simp only [List.get?, Option.some.injEq] at hk
    subst hk
    refine ⟨?_, sqrt_sq_sum_eq _ _ _ hs (by simp; linear_combination (s ^ 2 / 4) * h3)⟩
    have ha : -(π / 2) + ((2 : ℕ) : ℝ) * (π / 3) = π / 6 := by
      push_cast; ring
    rw [ha, Real.cos_pi_div_six, Real.sin_pi_div_six]
    norm_num [Prod.ext_iff]
    all_goals (first | (constructor <;> ring) | ring)
  · simp only [List.get?, Option.some.injEq] at hk
    subst hk
    refine ⟨?_, sqrt_sq_sum_eq _ _ _ hs (by simp)⟩
    have ha : -(π / 2) + ((3 : ℕ) : ℝ) * (π / 3) = π / 2 := by
      push_cast; ring
    rw [ha, Real.cos_pi_div_two, Real.sin_pi_div_two]
    norm_num [Prod.ext_iff]
    all_goals (first | (constructor <;> ring) | ring)
  · simp only [List.get?, Option.some.injEq] at hk
    subst hk
    refine ⟨?_, sqrt_sq_sum_eq _ _ _ hs (by simp; linear_combination (s ^ 2 / 4) * h3)⟩
    have ha : -(π / 2) + ((4 : ℕ) : ℝ) * (π / 3) = 5 * π / 6 := by
      push_cast; ring
    rw [ha, cos_five_pi_div_six, sin_five_pi_div_six]
    norm_num [Prod.ext_iff]
    all_goals (first | (constructor <;> ring) | ring)
  · simp only [List.get?, Option.some.injEq] at hk
    subst hk
    refine ⟨?_, sqrt_sq_sum_eq _ _ _ hs (by simp; linear_combination (s ^ 2 / 4) * h3)⟩
    have ha : -(π / 2) + ((5 : ℕ) : ℝ) * (π / 3) = π / 6 + π := by
      push_cast; ring
    rw [ha, Real.cos_add_pi, Real.sin_add_pi, Real.cos_pi_div_six,
      Real.sin_pi_div_six]
    norm_num [Prod.ext_iff]
    all_goals (first | (constructor <;> ring) | ring)

/-- Witness for C2 at center `(0,0)` and size 1. -/
theorem hexagon_corners_spec_witness :
    (0 : ℝ) ≤ 1 ∧ (hexagon_corners 0 0 1).length = 6 :=
  ⟨by norm_num, (hexagon_corners_spec 0 0 1 (by norm_num)).1⟩

/-- C3: the centroid-collapse step maps every non-empty position list to the
componentwise arithmetic mean; a singleton is unchanged, two identical
positions yield that position, two distinct positions yield their exact
midpoint. -/
theorem collapse_positions_spec :
    (∀ ps : List (ℝ × ℝ), ps ≠ [] →
      collapse_positions ps =
        ((ps.map Prod.fst).sum / ps.length,
         (ps.map Prod.snd).sum / ps.length)) ∧
    (∀ p : ℝ × ℝ, collapse_positions [p] = p) ∧
    (∀ p : ℝ × ℝ, collapse_positions [p, p] = p) ∧
    (∀ p q : ℝ × ℝ, collapse_positions [p, q] =
      ((p.1 + q.1) / 2, (p.2 + q.2) / 2)) := by
  have hmean : ∀ ps : List (ℝ × ℝ), ps ≠ [] →
      collapse_positions ps =
        ((ps.map Prod.fst).sum / ps.length,
         (ps.map Prod.snd).sum / ps.length) := by
    intro ps hne
    match ps with
    | [] => exact absurd rfl hne
    | [p] => simp [collapse_positions]
    | p :: q :: rest => simp [collapse_positions]
  refine ⟨hmean, ?_, ?_, ?_⟩
  · intro p
    simp [collapse_positions]
  · intro p
    rw [hmean [p, p] (by simp)]
    simp [Prod.ext_iff]
  · intro p q
    rw [hmean [p, q] (by simp)]
    simp [Prod.ext_iff]

/-- Witness for C3 on the concrete two-element list `[(1,2), (3,4)]`. -/
theorem collapse_positions_spec_witness :
    collapse_positions [((1 : ℝ), (2 : ℝ)), (3, 4)] = (2, 3) := by
  rw [collapse_positions_spec.2.2.2 (1, 2) (3, 4)]
  norm_num

/-- C4: constructing a `CubeCoord` fails exactly when `x + y + z ≠ 0`, and
every successfully constructed value has zero component sum and carries the
given components. -/
theorem cubeCoord_mk_spec (x y z : ℤ) :
    (CubeCoord.mk? x y z = none ↔ x + y + z ≠ 0) ∧
    (∀ c : CubeCoord, CubeCoord.mk? x y z = some c →
      c.x + c.y + c.z = 0 ∧ c = ⟨x, y, z⟩) := by
  unfold CubeCoord.mk?
  split_ifs with h
  · refine ⟨by simp [h], ?_⟩
    intro c hc
    obtain rfl : (⟨x, y, z⟩ : CubeCoord) = c := by
      simpa using hc
    exact ⟨h, rfl⟩
  · refine ⟨by simp [h], ?_⟩
    intro c hc
    simp at hc

/-- Witness for C4 at the valid triple `(0, 1, -1)`. -/
theorem cubeCoord_mk_spec_witness :
    (⟨0, 1, -1⟩ : CubeCoord).x + (⟨0, 1, -1⟩ : CubeCoord).y +
      (⟨0, 1, -1⟩ : CubeCoord).z = 0 ∧
    (⟨0, 1, -1⟩ : CubeCoord) = ⟨0, 1, -1⟩ :=
  (cubeCoord_mk_spec 0 1 (-1)).2 ⟨0, 1, -1⟩ (by decide)

/-- The non-singleton arithmetic-mean formula also covers the singleton
branch, so collapse is the mean on every non-empty list. -/
lemma collapse_positions_eq_mean (ps : List (ℝ × ℝ)) (hne : ps ≠ []) :
    collapse_positions ps =
      ((ps.map Prod.fst).sum / ps.length, (ps.map Prod.snd).sum / ps.length) := by
  match ps with
  | [] => exact absurd rfl hne
  | [p] => simp [collapse_positions]
  | p :: q :: rest => simp [collapse_positions]

/-- Collapsing a non-empty list of identical positions returns that
position. -/
lemma collapse_positions_const (ps : List (ℝ × ℝ)) (p : ℝ × ℝ)
    (hne : ps ≠ []) (hall : ∀ q ∈ ps, q = p) :
    collapse_positions ps = p := by
  have h1 : ps.map Prod.fst = List.replicate ps.length p.1 := by
    rw [List.eq_replicate]
    refine ⟨by simp, ?_⟩
    intro b hb
    obtain ⟨q, hq, rfl⟩ := List.mem_map.mp hb
    exact congrArg Prod.fst (hall q hq)
  have h2 : ps.map Prod.snd = List.replicate ps.length p.2 := by
    rw [List.eq_replicate]
    refine ⟨by simp, ?_⟩
    intro b hb
    obtain ⟨q, hq, rfl⟩ := List.mem_map.mp hb
    exact congrArg Prod.snd (hall q hq)
  have hn : (ps.length : ℝ) ≠ 0 := by
    simpa [List.length_eq_zero] using hne
  rw [collapse_positions_eq_mean ps hne, h1, h2, List.sum_replicate,
    List.sum_replicate, nsmul_eq_mul, nsmul_eq_mul,
    mul_div_cancel_left₀ _ hn, mul_div_cancel_left₀ _ hn]

/-- C5: any two entries of the mini node-ID table carrying the same node ID
produce identical pixel positions (for every hex size), the referencing
coordinates are tiles of the mini topology, and therefore the collapsed
centroid of such identical contributions equals each individual
contribution. -/
theorem mini_shared_nodes_consistent (size : ℝ)
    (e1 e2 : ((ℤ × ℤ × ℤ) × String) × ℕ)
    (h1 : e1 ∈ MINI_NODE_IDS) (h2 : e2 ∈ MINI_NODE_IDS)
    (hid : e1.2 = e2.2) :
    node_pixel e1.1.1 e1.1.2 size = node_pixel e2.1.1 e2.1.2 size ∧
    e1.1.1 ∈ MINI_TOPOLOGY.map Prod.fst ∧
    (∀ (ps : List (ℝ × ℝ)) (p : ℝ × ℝ), ps ≠ [] → (∀ q ∈ ps, q = p) →
      collapse_positions ps = p) := by
  obtain ⟨hx, hy⟩ := mini_node_ids_consistent.1 e1 h1 e2 h2 hid
  have hm1 := mini_node_ids_consistent.2 e1 h1
  have hm2 := mini_node_ids_consistent.2 e2 h2
  refine ⟨?_, hm1.2, fun ps p => collapse_positions_const ps p⟩
  obtain ⟨⟨c1, r1⟩, i1⟩ := e1
  obtain ⟨⟨c2, r2⟩, i2⟩ := e2
  obtain ⟨x1, y1, z1⟩ := c1
  obtain ⟨x2, y2, z2⟩ := c2
  rw [node_pixel_int x1 y1 z1 size r1 hm1.1,
    node_pixel_int x2 y2 z2 size r2 hm2.1]
  simp only at hx hy
  rw [hx, hy]

/-- Witness for C5: node 0 as seen from tile `(0,0,0)` (its North corner) and
from tile `(0,1,-1)` (its SouthEast corner), at size 1. -/
theorem mini_shared_nodes_consistent_witness :
    node_pixel (0, 0, 0) NodeRef.North 1 =
      node_pixel (0, 1, -1) NodeRef.SouthEast 1 ∧
    ((0 : ℤ), (0 : ℤ), (0 : ℤ)) ∈ MINI_TOPOLOGY.map Prod.fst ∧
    (∀ (ps : List (ℝ × ℝ)) (p : ℝ × ℝ), ps ≠ [] → (∀ q ∈ ps, q = p) →
      collapse_positions ps = p) :=
  mini_shared_nodes_consistent 1 (((0, 0, 0), NodeRef.North), 0)
    (((0, 1, -1), NodeRef.SouthEast), 0)
    (by decide) (by decide) rfl

/-- The tile loop never fails on a topology of zero-sum coordinates. -/
lemma render_tiles_total (size : ℝ)
    (nids : List (((ℤ × ℤ × ℤ) × String) × ℕ)) (active : Bool) :
    ∀ (tiles : List ((ℤ × ℤ × ℤ) × String))
      (acc : List (ℝ × ℝ) × List (ℕ × List (ℝ × ℝ))),
      (∀ t ∈ tiles, t.1.1 + t.1.2.1 + t.1.2.2 = 0) →
      ∃ out, render_tiles size nids active tiles acc = some out := by
  intro tiles
  induction tiles with
  | nil => exact fun acc _ => ⟨_, rfl⟩
  | cons t rest ih =>
    intro acc hall
    obtain ⟨⟨x, y, z⟩, kind⟩ := t
    have hz : x + y + z = 0 := hall _ (List.mem_cons_self _ _)
    have hmk : CubeCoord.mk? x y z = some ⟨x, y, z⟩ := by
      simp [CubeCoord.mk?, hz]
    obtain ⟨out, hout⟩ :=
      ih (acc.1 ++ [cube_to_pixel ⟨x, y, z⟩ size],
          if active then
            collect_tile_nodes nids (x, y, z)
              (cube_to_pixel ⟨x, y, z⟩ size).1
              (cube_to_pixel ⟨x, y, z⟩ size).2 size acc.2
          else acc.2)
        (fun t ht => hall t (List.mem_cons_of_mem _ ht))
    exact ⟨out, by rw [render_tiles, hmk]; exact hout⟩

/-- With node collection inactive, the tile loop leaves the node accumulator
untouched. -/
lemma render_tiles_inactive (size : ℝ)
    (nids : List (((ℤ × ℤ × ℤ) × String) × ℕ)) :
    ∀ (tiles : List ((ℤ × ℤ × ℤ) × String))
      (acc : List (ℝ × ℝ) × List (ℕ × List (ℝ × ℝ)))
      (out : List (ℝ × ℝ) × List (ℕ × List (ℝ × ℝ))),
      render_tiles size nids false tiles acc = some out → out.2 = acc.2 := by
  intro tiles
  induction tiles with
  | nil =>
    intro acc out h
    simp only [render_tiles, Option.some.injEq] at h
    rw [← h]
  | cons t rest ih =>
    intro acc out h
    obtain ⟨⟨x, y, z⟩, kind⟩ := t
    rw [render_tiles] at h
    cases hmk : CubeCoord.mk? x y z with
    | none => rw [hmk] at h; exact Option.noConfusion h
    | some cube =>
      rw [hmk] at h
      simpa using ih _ _ h

/-- Evaluation of the full pass on the single tile `(0,0,0)` with a
single-entry node-ID table for one direction of that tile: one hexagon is
drawn and exactly the one mapped node is labelled, at its corner position. -/
lemma visualize_single_tile_entry (size : ℝ) (i : ℕ) (ref : String)
    (pos : ℝ × ℝ) (h : ref ∈ node_order)
    (hpos : get_node_position (cube_to_pixel ⟨0, 0, 0⟩ size).1
      (cube_to_pixel ⟨0, 0, 0⟩ size).2 size ref = some pos) :
    visualize_map [((0, 0, 0), TileTemplate.LAND)] size
        (some [(((0, 0, 0), ref), i)]) =
      some ⟨[cube_to_pixel ⟨0, 0, 0⟩ size], [(i, pos)]⟩ := by
  simp only [node_order, List.mem_cons, List.not_mem_nil, or_false] at h
  rcases h with rfl | rfl | rfl | rfl | rfl | rfl <;>
    simp only [NodeRef.North, NodeRef.NorthEast, NodeRef.SouthEast,
      NodeRef.South, NodeRef.SouthWest, NodeRef.NorthWest] at hpos ⊢ <;>
    simp [visualize_map, render_tiles, collect_tile_nodes, table_truthy,
      CubeCoord.mk?, node_order, dict_lookup, add_position, hpos,
      collapse_positions, NodeRef.North, NodeRef.NorthEast, NodeRef.SouthEast,
      NodeRef.South, NodeRef.SouthWest, NodeRef.NorthWest]

/-- C6: a `(coordinate, direction)` pair absent from the node-ID table is
skipped without error: the pass completes on any table, a tile none of whose
pairs are mapped contributes no position at all, and a tile with a single
mapped direction contributes exactly one labelled node (fewer than six). -/
theorem missing_node_mapping_skipped :
    (∀ (topology : List ((ℤ × ℤ × ℤ) × String)) (size : ℝ)
        (nids : Option (List (((ℤ × ℤ × ℤ) × String) × ℕ))),
      (∀ t ∈ topology, t.1.1 + t.1.2.1 + t.1.2.2 = 0) →
      ∃ out, visualize_map topology size nids = some out) ∧
    (∀ (nids : List (((ℤ × ℤ × ℤ) × String) × ℕ)) (coord : ℤ × ℤ × ℤ)
        (px py size : ℝ) (acc : List (ℕ × List (ℝ × ℝ))),
      (∀ ref ∈ node_order, dict_lookup nids (coord, ref) = none) →
      collect_tile_nodes nids coord px py size acc = acc) ∧
    (∀ (size : ℝ) (i : ℕ), ∃ out,
      visualize_map [((0, 0, 0), TileTemplate.LAND)] size
          (some [(((0, 0, 0), NodeRef.South), i)]) = some out ∧
      out.labels.length = 1) := by
  refine ⟨?_, ?_, ?_⟩
  · intro topology size nids hall
    obtain ⟨o, ho⟩ :=
      render_tiles_total size (nids.getD []) (table_truthy nids) topology
        ([], []) hall
    exact ⟨_, by rw [visualize_map, ho]; rfl⟩
  · intro nids coord px py size acc hnone
    have h1 := hnone NodeRef.North (by decide)
    have h2 := hnone NodeRef.NorthEast (by decide)
    have h3 := hnone NodeRef.SouthEast (by decide)
    have h4 := hnone NodeRef.South (by decide)
    have h5 := hnone NodeRef.SouthWest (by decide)
    have h6 := hnone NodeRef.NorthWest (by decide)
    simp [collect_tile_nodes, node_order, h1, h2, h3, h4, h5, h6]
  · intro size i
    refine ⟨⟨[cube_to_pixel ⟨0, 0, 0⟩ size],
             [(i, ((cube_to_pixel ⟨0, 0, 0⟩ size).1,
                   (cube_to_pixel ⟨0, 0, 0⟩ size).2 + size))]⟩, ?_, rfl⟩
    exact visualize_single_tile_entry size i NodeRef.South _ (by decide)
      (get_node_position_south _ _ _)

/-- Witness for C6: the pass completes on the one-tile topology with no
table supplied. -/
theorem missing_node_mapping_skipped_witness :
    ∃ out, visualize_map [((0, 0, 0), TileTemplate.LAND)] 1 none = some out :=
  missing_node_mapping_skipped.1 [((0, 0, 0), TileTemplate.LAND)] 1 none
    (by decide)

/-- C7: rendering exactly one Land tile at `(0,0,0)` with no node-ID table
draws exactly one hexagon and emits zero node labels. -/
theorem single_tile_no_table (size : ℝ) :
    ∃ out : RenderOutput,
      visualize_map [((0, 0, 0), TileTemplate.LAND)] size none = some out ∧
      out.hexagons.length = 1 ∧ out.labels = [] := by
  refine ⟨⟨[cube_to_pixel ⟨0, 0, 0⟩ size], []⟩, ?_, rfl, rfl⟩
  simp [visualize_map, render_tiles, table_truthy, CubeCoord.mk?]

/-- C8: rendering the tile `(0,0,0)` with a node-ID table whose single entry
is `((0,0,0), North)` emits exactly one node label, positioned at
`get_node_position` of the tile's center, the hex size, and North. -/
theorem single_tile_north_label (size : ℝ) (i : ℕ) :
    ∃ pos : ℝ × ℝ,
      get_node_position (cube_to_pixel ⟨0, 0, 0⟩ size).1
        (cube_to_pixel ⟨0, 0, 0⟩ size).2 size NodeRef.North = some pos ∧
      visualize_map [((0, 0, 0), TileTemplate.LAND)] size
          (some [(((0, 0, 0), NodeRef.North), i)]) =
        some ⟨[cube_to_pixel ⟨0, 0, 0⟩ size], [(i, pos)]⟩ :=
  ⟨_, get_node_position_north _ _ _,
    visualize_single_tile_entry size i NodeRef.North _ (by decide)
      (get_node_position_north _ _ _)⟩

/-- C9: an empty node-ID table is as falsy as an absent one: the collection
guard is off, the output coincides with the no-table run, and no labels are
emitted. -/
theorem empty_table_like_none :
    table_truthy (some []) = false ∧ table_truthy none = false ∧
    (∀ (topology : List ((ℤ × ℤ × ℤ) × String)) (size : ℝ),
      visualize_map topology size (some []) =
        visualize_map topology size none) ∧
    (∀ (topology : List ((ℤ × ℤ × ℤ) × String)) (size : ℝ)
        (out : RenderOutput),
      visualize_map topology size (some []) = some out →
      out.labels = []) := by
  refine ⟨rfl, rfl, fun _ _ => rfl, ?_⟩
  intro topology size out h
  simp only [visualize_map, table_truthy, Option.getD_some, List.isEmpty_nil,
    Bool.not_true] at h
  obtain ⟨pair, hpair, hout⟩ := Option.map_eq_some'.mp h
  have hnacc := render_tiles_inactive size [] topology ([], []) pair hpair
  rw [← hout]
  simp [hnacc]

/-- Witness for C9 on the one-tile topology at size 1. -/
theorem empty_table_like_none_witness :
    table_truthy (some []) = false ∧
    visualize_map [((0, 0, 0), TileTemplate.LAND)] 1 (some []) =
      visualize_map [((0, 0, 0), TileTemplate.LAND)] 1 none :=
  ⟨empty_table_like_none.1,
   empty_table_like_none.2.2.1 [((0, 0, 0), TileTemplate.LAND)] 1⟩

/-- C10: `get_node_position` succeeds exactly on the six direction names, on
which it returns the corner at that direction's index in `node_order`; any
other string finds no entry in `node_map` and reaches the error branch. -/
theorem get_node_position_domain (cx cy size : ℝ) (ref : String) :
    ((get_node_position cx cy size ref).isSome ↔ ref ∈ node_order) ∧
    (ref ∉ node_order → dict_lookup node_map ref = none ∧
      get_node_position cx cy size ref = none) ∧
    get_node_position cx cy size NodeRef.North =
      (hexagon_corners cx cy size).get? 0 ∧
    get_node_position cx cy size NodeRef.NorthEast =
      (hexagon_corners cx cy size).get? 1 ∧
    get_node_position cx cy size NodeRef.SouthEast =
      (hexagon_corners cx cy size).get? 2 ∧
    get_node_position cx cy size NodeRef.South =
      (hexagon_corners cx cy size).get? 3 ∧
    get_node_position cx cy size NodeRef.SouthWest =
      (hexagon_corners cx cy size).get? 4 ∧
    get_node_position cx cy size NodeRef.NorthWest =
      (hexagon_corners cx cy size).get? 5 := by
  refine ⟨⟨?_, ?_⟩, ?_, ?_, ?_, ?_, ?_, ?_, ?_⟩
  · intro hs
    by_contra hmem
    rw [get_node_position, node_map_lookup_none ref hmem] at hs
    simp at hs
  · intro hmem
    simp only [node_order, List.mem_cons, List.not_mem_nil, or_false] at hmem
    rcases hmem with rfl | rfl | rfl | rfl | rfl | rfl <;>
      simp [get_node_position_north, get_node_position_northEast,
        get_node_position_southEast, get_node_position_south,
        get_node_position_southWest, get_node_position_northWest]
  · intro hmem
    refine ⟨node_map_lookup_none ref hmem, ?_⟩
    rw [get_node_position, node_map_lookup_none ref hmem]
    rfl
  · rw [get_node_position_north, hexagon_corners_eq]; rfl
  · rw [get_node_position_northEast, hexagon_corners_eq]; rfl
  · rw [get_node_position_southEast, hexagon_corners_eq]; rfl
  · rw [get_node_position_south, hexagon_corners_eq]; rfl
  · rw [get_node_position_southWest, hexagon_corners_eq]; rfl
  · rw [get_node_position_northWest, hexagon_corners_eq]; rfl

/-- Witness for C10 on the non-direction string `"East"`. -/
theorem get_node_position_domain_witness :
    dict_lookup node_map "East" = none ∧
    get_node_position 0 0 1 "East" = none :=
  (get_node_position_domain 0 0 1 "East").2.1 (by decide)
